import Mathlib

/-!
Verification of the Flick-TV repository core logic: the M3U playlist parser
(`src/lib/m3u-parser.ts`), the favorites store (`use-favorites` hook), channel
navigation (`src/app/page.tsx`), the playlist relay endpoint
(`src/app/api/playlist/route.ts`) and the CORS proxy helper
(`src/lib/cors-proxy.ts`), shallowly embedded in Lean.

JavaScript strings are modelled as `List Char` (Lean `String` at the
interfaces); JavaScript `undefined` on optional record fields is `Option`.
-/

/-! ## JavaScript string primitives -/

/-- The JavaScript whitespace set used by `String.prototype.trim` and by the
regex class `\s`: WhiteSpace plus LineTerminator code points. -/
def isJSWhitespace (c : Char) : Bool :=
  c == ' ' || c == '\t' || c == '\n' || c == '\r' ||
  c.toNat == 0x0B || c.toNat == 0x0C || c.toNat == 0xA0 || c.toNat == 0x1680 ||
  (0x2000 ≤ c.toNat && c.toNat ≤ 0x200A) || c.toNat == 0x2028 || c.toNat == 0x2029 ||
  c.toNat == 0x202F || c.toNat == 0x205F || c.toNat == 0x3000 || c.toNat == 0xFEFF

/-- `String.prototype.trim`: drop JS whitespace from both ends. -/
def jsTrimList (l : List Char) : List Char :=
  ((l.dropWhile isJSWhitespace).reverse.dropWhile isJSWhitespace).reverse

/-- `content.split('\n')` on the character list: split at every newline,
keeping empty segments (as JavaScript does). -/
def splitOnNewline : List Char → List (List Char)
  | [] => [[]]
  | c :: cs =>
    if c == '\n' then [] :: splitOnNewline cs
    else
      match splitOnNewline cs with
      | [] => [[c]]
      | l :: ls => (c :: l) :: ls

/-- `s.startsWith(p)`: `p` is a literal prefix of `l`. -/
def listStartsWith : List Char → List Char → Bool
  | _, [] => true
  | [], _ :: _ => false
  | c :: cs, p :: ps => c == p && listStartsWith cs ps

/-! ## btoa and channel identifiers -/

/-- Standard base64 alphabet lookup. -/
def b64Char (n : Nat) : Char :=
  "ABCDEFGHIJKLMNOPQRSTUVWXYZabcdefghijklmnopqrstuvwxyz0123456789+/".data.getD n 'A'

/-- Base64-encode a byte list (the Lean model of `btoa`'s output). -/
def base64Encode : List Nat → List Char
  | [] => []
  | [b1] => [b64Char (b1 / 4), b64Char (b1 % 4 * 16), '=', '=']
  | [b1, b2] => [b64Char (b1 / 4), b64Char (b1 % 4 * 16 + b2 / 16), b64Char (b2 % 16 * 4), '=']
  | b1 :: b2 :: b3 :: rest =>
    b64Char (b1 / 4) :: b64Char (b1 % 4 * 16 + b2 / 16) ::
      b64Char (b2 % 16 * 4 + b3 / 64) :: b64Char (b3 % 64) :: base64Encode rest

/-- `btoa(s)`: fails (throws `InvalidCharacterError` in JavaScript) when any
character has a code point above 255, else base64-encodes the Latin-1 bytes. -/
def btoa (l : List Char) : Option (List Char) :=
  if l.all (fun c => decide (c.toNat ≤ 255)) then some (base64Encode (l.map Char.toNat))
  else none

/-- ASCII alphanumeric test, the character class `[a-zA-Z0-9]` of the
`replace` call in `generateChannelId`. -/
def isAlphanumChar (c : Char) : Bool :=
  ('a' ≤ c && c ≤ 'z') || ('A' ≤ c && c ≤ 'Z') || ('0' ≤ c && c ≤ '9')

/-- `M3UParser.generateChannelId`: `btoa(name + url)` with all
non-alphanumeric characters removed, truncated to 16 characters. `none` models
the `btoa` exception (caught by `parseExtInfLine`). -/
def generateChannelId (name url : String) : Option String :=
  (btoa (name.data ++ url.data)).map (fun b => ⟨(b.filter isAlphanumChar).take 16⟩)

/-! ## EXTINF attribute extraction (the regex scanner) -/

/-- The regex class `\w`: `[A-Za-z0-9_]`. -/
def isWordChar (c : Char) : Bool :=
  ('a' ≤ c && c ≤ 'z') || ('A' ≤ c && c ≤ 'Z') || ('0' ≤ c && c ≤ '9') || c == '_'

/-- Greedy continuation of the key pattern `(?:-\w+)*`: consume further
`-word` chunks. Fuel-driven so the definition is structural. -/
def chunkLoop (fuel : Nat) (key : List Char) (l : List Char) : List Char × List Char :=
  match fuel with
  | 0 => (key, l)
  | fuel + 1 =>
    match l with
    | a :: b :: rest =>
      if a == '-' && isWordChar b then
        let run := (b :: rest).takeWhile isWordChar
        chunkLoop fuel (key ++ '-' :: run) ((b :: rest).drop run.length)
      else (key, a :: b :: rest)
    | _ => (key, l)

/-- The unquoted-value alternative `([^\s,]+)`. -/
def unquotedValue (l : List Char) : Option (List Char × List Char) :=
  let run := l.takeWhile (fun c => !isJSWhitespace c && c != ',')
  if run.isEmpty then none else some (run, l.drop run.length)

/-- The value alternation `(?:"([^"]*)"|([^\s,]+))`: a quoted value needs a
closing quote; otherwise the unquoted alternative is tried from the same
position (so an unterminated quote is consumed literally). -/
def matchValue (l : List Char) : Option (List Char × List Char) :=
  match l with
  | [] => none
  | c :: rest =>
    if c == '"' then
      if rest.contains '"' then
        some (rest.takeWhile (fun d => d != '"'), (rest.dropWhile (fun d => d != '"')).drop 1)
      else unquotedValue (c :: rest)
    else unquotedValue (c :: rest)

/-- Try to match `(\w+(?:-\w+)*)=(?:"([^"]*)"|([^\s,]+))` at the start of
`l`; on success return the key, the value and the remaining input. -/
def tryMatch (l : List Char) : Option (List Char × List Char × List Char) :=
  let run := l.takeWhile isWordChar
  if run.isEmpty then none
  else
    match chunkLoop l.length run (l.drop run.length) with
    | (key, rest1) =>
      match rest1 with
      | [] => none
      | e :: rest2 =>
        if e == '=' then
          match matchValue rest2 with
          | none => none
          | some (v, rest3) => some (key, v, rest3)
        else none

/-- The global regex `exec` loop: at each position try to match; on success
continue after the match, on failure advance one character. -/
def scanAttrs (fuel : Nat) (l : List Char) : List (List Char × List Char) :=
  match fuel with
  | 0 => []
  | fuel + 1 =>
    match l with
    | [] => []
    | c :: rest =>
      match tryMatch (c :: rest) with
      | some (key, value, rest') => (key, value) :: scanAttrs fuel rest'
      | none => scanAttrs fuel rest

/-- `M3UParser.extractAttributes`: every `key=value` / `key="value"` match on
the line, in match order (a later match for the same key overwrites). -/
def extractAttributes (line : List Char) : List (List Char × List Char) :=
  scanAttrs line.length line

/-- Read `attributes[key]` from the match list: the last write wins, absent
keys give `undefined` (`none`). -/
def getAttr (attrs : List (List Char × List Char)) (key : List Char) : Option String :=
  match attrs with
  | [] => none
  | (k, v) :: rest =>
    match getAttr rest key with
    | some r => some r
    | none => if k == key then some ⟨v⟩ else none

/-! ## The parser -/

/-- A parsed channel record (interface `Channel` of `m3u-parser.ts`). -/
structure Channel where
  id : String
  name : String
  url : String
  group : Option String := none
  logo : Option String := none
  country : Option String := none
  language : Option String := none
  tvgId : Option String := none
  tvgName : Option String := none
deriving DecidableEq

/-- Interface `ParsedPlaylist`. -/
structure ParsedPlaylist where
  channels : List Channel
  totalChannels : Nat
deriving DecidableEq

/-- The marker `'#EXTINF:'`. -/
def extinfMarker : List Char := "#EXTINF:".data

/-- `extinfLine.match(/,([^,]*)$/)`: the text after the last comma, or `none`
when the line has no comma. -/
def lastCommaSuffix (l : List Char) : Option (List Char) :=
  if l.contains ',' then some ((l.reverse.takeWhile (fun c => c != ',')).reverse) else none

/-- `M3UParser.parseExtInfLine`: extract attributes and the display name from
the marker line, build the channel; `none` models the caught `btoa` exception
(non-Latin-1 name/URL), the only throwing operation in the `try` block. -/
def parseExtInfLine (extinfLine urlLine : List Char) : Option Channel :=
  let attributes := extractAttributes extinfLine
  let name : List Char :=
    match lastCommaSuffix extinfLine with
    | some s => jsTrimList s
    | none => "Unknown Channel".data
  match generateChannelId ⟨name⟩ ⟨urlLine⟩ with
  | none => none
  | some id =>
    some {
      id := id
      name := ⟨name⟩
      url := ⟨jsTrimList urlLine⟩
      group := getAttr attributes "group-title".data
      logo := getAttr attributes "tvg-logo".data
      country := getAttr attributes "tvg-country".data
      language := getAttr attributes "tvg-language".data
      tvgId := getAttr attributes "tvg-id".data
      tvgName := getAttr attributes "tvg-name".data }

/-- The scan loop of `M3UParser.parseFromContent`: a `#EXTINF:` line whose
next line exists and is not a comment yields a channel (when the entry
parses), and the URL line is skipped; otherwise move on one line. -/
def parseLines : List (List Char) → List Channel
  | [] => []
  | [_] => []
  | line :: next :: rest =>
    if listStartsWith line extinfMarker then
      if listStartsWith next ['#'] then parseLines (next :: rest)
      else
        match parseExtInfLine line next with
        | some ch => ch :: parseLines rest
        | none => parseLines rest
    else parseLines (next :: rest)

/-- Line preprocessing of `parseFromContent`: split on newlines, trim each
line, drop empty (falsy) lines. -/
def processedLines (content : String) : List (List Char) :=
  ((splitOnNewline content.data).map jsTrimList).filter (fun l => !l.isEmpty)

/-- `M3UParser.parseFromContent`. -/
def parseFromContent (content : String) : ParsedPlaylist :=
  let channels := parseLines (processedLines content)
  { channels := channels, totalChannels := channels.length }

/-- The count the specification speaks about: lines starting with `#EXTINF:`
whose immediate successor (in the trimmed, blank-free line list) does not
start with `#`. -/
def extinfPairCount : List (List Char) → Nat
  | l1 :: l2 :: rest =>
    (if listStartsWith l1 extinfMarker && !listStartsWith l2 ['#'] then 1 else 0) +
      extinfPairCount (l2 :: rest)
  | _ => 0

/-- The (marker line, URL line) candidate pairs the scan loop feeds to
`parseExtInfLine`, independent of whether each entry parses. -/
def entryPairs : List (List Char) → List (List Char × List Char)
  | l1 :: l2 :: rest =>
    if listStartsWith l1 extinfMarker then
      if listStartsWith l2 ['#'] then entryPairs (l2 :: rest)
      else (l1, l2) :: entryPairs rest
    else entryPairs (l2 :: rest)
  | _ => []

/-! ## Relay endpoint and CORS proxy models -/

/-- An HTTP response of the relay endpooint: status, body and headers. -/
structure RelayResponse where
  status : Nat
  body : String
  headers : List (String × String)
deriving DecidableEq

/-- Outcome of the upstream `fetch` inside the relay handler: either a
response (any status) or a network-level exception. -/
inductive FetchOutcome
  | response (status : Nat) (body : String)
  | failure
deriving DecidableEq

/-- A `NextResponse.json({error: msg}, {status})` response. -/
def jsonErrorResponse (msg : String) (status : Nat) : RelayResponse :=
  { status := status
    body := "\x7b\"error\":\"" ++ msg ++ "\"\x7d"
    headers := [("Content-Type", "application/json")] }

/-- The `GET` handler of `src/app/api/playlist/route.ts`: `urlParam` is
`searchParams.get('url')` (`none` when absent), `outcome` the upstream fetch
result. A falsy (absent or empty) parameter short-circuits to 400 before any
fetch; a thrown fetch maps to 500; a non-ok upstream status is passed
through; an ok upstream yields 200 with the body verbatim and the plain-text,
CORS and caching headers. -/
def GET (urlParam : Option String) (outcome : FetchOutcome) : RelayResponse :=
  match urlParam with
  | none => jsonErrorResponse "Missing url parameter" 400
  | some url =>
    if url = "" then jsonErrorResponse "Missing url parameter" 400
    else
      match outcome with
      | FetchOutcome.failure => jsonErrorResponse "Internal server error" 500
      | FetchOutcome.response status body =>
        if 200 ≤ status ∧ status ≤ 299 then
          { status := 200
            body := body
            headers := [("Content-Type", "text/plain; charset=utf-8"),
                        ("Access-Control-Allow-Origin", "*"),
                        ("Cache-Control", "public, max-age=300")] }
        else jsonErrorResponse "Failed to fetch playlist" status

/-- The module-level proxy list of `src/lib/cors-proxy.ts`. -/
def CORS_PROXIES : List String :=
  ["https://corsproxy.io/?", "https://api.allorigins.win/raw?url="]

/-- Hex digit for percent-encoding (uppercase, as `encodeURIComponent`). -/
def hexDigit (n : Nat) : Char := "0123456789ABCDEF".data.getD n '0'

/-- UTF-8 bytes of a unicode scalar value. -/
def utf8Bytes (c : Char) : List Nat :=
  let n := c.toNat
  if n < 0x80 then [n]
  else if n < 0x800 then [0xC0 + n / 0x40, 0x80 + n % 0x40]
  else if n < 0x10000 then
    [0xE0 + n / 0x1000, 0x80 + n / 0x40 % 0x40, 0x80 + n % 0x40]
  else
    [0xF0 + n / 0x40000, 0x80 + n / 0x1000 % 0x40, 0x80 + n / 0x40 % 0x40, 0x80 + n % 0x40]

/-- Characters `encodeURIComponent` leaves unescaped:
`A-Z a-z 0-9 - _ . ! ~ * ' ( )`. -/
def isUriUnreserved (c : Char) : Bool :=
  ('A' ≤ c && c ≤ 'Z') || ('a' ≤ c && c ≤ 'z') || ('0' ≤ c && c ≤ '9') ||
  c == '-' || c == '_' || c == '.' || c == '!' || c == '~' || c == '*' ||
  c == '(' || c == ')' || c.toNat == 39

/-- JavaScript `encodeURIComponent`: unreserved characters kept, all others
percent-encoded byte-wise in UTF-8. -/
def encodeURIComponent (s : String) : String :=
  ⟨(s.data.map (fun c =>
      if isUriUnreserved c then [c]
      else (utf8Bytes c).map (fun b => ['%', hexDigit (b / 16), hexDigit (b % 16)]) |>.flatten)).flatten⟩

/-- `getProxiedUrl` of `src/lib/cors-proxy.ts`: HTTPS URLs are returned
unchanged; anything else is prefixed with `CORS_PROXIES[currentProxyIndex]`
(the module-level index, passed here explicitly) around the percent-encoded
URL. An out-of-range index would interpolate `undefined`, as in JavaScript. -/
def getProxiedUrl (currentProxyIndex : Nat) (url : String) : String :=
  if listStartsWith url.data "https://".data then url
  else CORS_PROXIES.getD currentProxyIndex "undefined" ++ encodeURIComponent url

/-! ## Favorites store (`use-favorites` hook) -/

/-- `isFavorite`: membership via `favorites.includes`. -/
def isFavorite (favorites : List String) (channelId : String) : Bool :=
  favorites.contains channelId

/-- `addFavorite`: append the identifier unless already present. -/
def addFavorite (channelId : String) (prev : List String) : List String :=
  if prev.contains channelId then prev else prev ++ [channelId]

/-- `removeFavorite`: remove every occurrence of the identifier. -/
def removeFavorite (channelId : String) (prev : List String) : List String :=
  prev.filter (fun i => i != channelId)

/-- `toggleFavorite`: remove when present, add when absent. -/
def toggleFavorite (channelId : String) (favorites : List String) : List String :=
  if isFavorite favorites channelId then removeFavorite channelId favorites
  else addFavorite channelId favorites

/-- `clearFavorites` resets the list to empty. -/
def clearFavorites : List String := []

/-! ## Grouping (`M3UParser.groupChannelsByCategory`) -/

/-- The JavaScript category key: `channel.group || 'Uncategorized'` — the
falsy values `undefined` and the empty string both fall back. -/
def categoryOf (ch : Channel) : String :=
  match ch.group with
  | none => "Uncategorized"
  | some g => if g = "" then "Uncategorized" else g

/-- The own property names of `Object.prototype`. `grouped` is a plain object
literal, so reading `grouped[k]` for one of these names finds the inherited
prototype member (a function, or the prototype object for `__proto__`) even
when the key was never written — and every such member is truthy. -/
def objectPrototypeKeys : List String :=
  ["constructor", "hasOwnProperty", "isPrototypeOf", "propertyIsEnumerable",
   "toLocaleString", "toString", "valueOf", "__proto__",
   "__defineGetter__", "__defineSetter__", "__lookupGetter__", "__lookupSetter__"]

/-- Update of the object's own string-keyed entries (insertion-ordered
association list): append to the category's bucket, creating it at the end
when absent. This is what `grouped[category].push(channel)` does for a
category that does not collide with `Object.prototype`. -/
def insertOwn (grouped : List (String × List Channel)) (category : String)
    (ch : Channel) : List (String × List Channel) :=
  match grouped with
  | [] => [(category, [ch])]
  | (k, chs) :: rest =>
    if k = category then (k, chs ++ [ch]) :: rest
    else (k, chs) :: insertOwn rest category ch

/-- One loop body
`if (!grouped[category]) { grouped[category] = []; } grouped[category].push(channel)`.
For a category colliding with an `Object.prototype` property the read finds
the inherited truthy member, the initialisation is skipped, and `.push` is
called on a non-array: a `TypeError` is thrown (modelled as `Except.error`).
Own keys always hold (truthy) arrays, so otherwise the own entries are
updated. -/
def insertChannel (grouped : List (String × List Channel)) (category : String)
    (ch : Channel) : Except Unit (List (String × List Channel)) :=
  if category ∈ objectPrototypeKeys then Except.error ()
  else Except.ok (insertOwn grouped category ch)

/-- The `forEach` loop of `groupChannelsByCategory`: a thrown `TypeError`
aborts the whole traversal at the first offending channel. -/
def groupFold (acc : List (String × List Channel)) :
    List Channel → Except Unit (List (String × List Channel))
  | [] => Except.ok acc
  | ch :: rest =>
    match insertChannel acc (categoryOf ch) ch with
    | Except.error e => Except.error e
    | Except.ok acc2 => groupFold acc2 rest

/-- `M3UParser.groupChannelsByCategory`: fold every channel into its
category's ordered bucket, or throw on a prototype-colliding label. -/
def groupChannelsByCategory (channels : List Channel) :
    Except Unit (List (String × List Channel)) :=
  groupFold [] channels

/-- The own property of the grouped object for a key, `none` when the object
has no own entry (a real read would then continue to `Object.prototype`,
which never holds a channel list). -/
def lookupGroup (category : String) : List (String × List Channel) → Option (List Channel)
  | [] => none
  | (k, chs) :: rest => if k = category then some chs else lookupGroup category rest

/-! ## Channel navigation (`navigateChannel` in `src/app/page.tsx`) -/

/-- The two navigation directions. -/
inductive NavDirection
  | next
  | prev
deriving DecidableEq

/-- `Array.prototype.findIndex`: first matching index, `-1` when absent. -/
def jsFindIndex (p : Channel → Bool) : List Channel → Int
  | [] => -1
  | ch :: rest =>
    if p ch then 0
    else
      let r := jsFindIndex p rest
      if r < 0 then -1 else r + 1

/-- `navigateChannel`: locate the current channel by identifier, step the
index with JavaScript truncated `%` (wrapping both ways), and read the
channel at the resulting index (`none` models `undefined`). -/
def navigateChannel (channels : List Channel) (currentId : String)
    (direction : NavDirection) : Option Channel :=
  let currentIndex := jsFindIndex (fun ch => ch.id == currentId) channels
  let n : Int := channels.length
  let nextIndex : Int :=
    match direction with
    | NavDirection.next => (currentIndex + 1).tmod n
    | NavDirection.prev => (currentIndex - 1 + n).tmod n
  if 0 ≤ nextIndex then channels.get? nextIndex.toNat else none

/-! ## Helper lemmas on trimming -/

theorem dropWhile_head_false {p : Char → Bool} :
    ∀ {l : List Char} {c : Char} {t : List Char},
      List.dropWhile p l = c :: t → p c = false := by
  intro l
  induction l with
  | nil => intro c t h; simp at h
  | cons a as ih =>
    intro c t h
    rw [List.dropWhile_cons] at h
    by_cases hp : p a
    · rw [if_pos hp] at h
      exact ih h
    · rw [if_neg hp] at h
      cases h
      exact Bool.eq_false_iff.mpr hp

theorem dropWhile_idem_char {p : Char → Bool} (l : List Char) :
    List.dropWhile p (List.dropWhile p l) = List.dropWhile p l := by
  cases h : List.dropWhile p l with
  | nil => simp
  | cons c t =>
    have hc := dropWhile_head_false h
    rw [List.dropWhile_cons, hc]
    simp

theorem dropWhile_rightTrim {p : Char → Bool} {x : List Char}
    (h : List.dropWhile p x = x) :
    List.dropWhile p ((List.dropWhile p x.reverse).reverse) =
      (List.dropWhile p x.reverse).reverse := by
  obtain ⟨s, hs⟩ := List.dropWhile_suffix (l := x.reverse) p
  have hx : x = (List.dropWhile p x.reverse).reverse ++ s.reverse := by
    have := congrArg List.reverse hs
    simpa using this.symm
  cases hR : (List.dropWhile p x.reverse).reverse with
  | nil => simp
  | cons c u =>
    have hcx : x = c :: (u ++ s.reverse) := by rw [hx, hR]; simp
    have hpc : p c = false := by
      rw [hcx] at h
      by_cases hp : p c
      · exfalso
        rw [List.dropWhile_cons, if_pos hp] at h
        have hlen := congrArg List.length h
        have hle : (List.dropWhile p (u ++ s.reverse)).length ≤ (u ++ s.reverse).length :=
          (List.dropWhile_suffix p).sublist.length_le
        simp only [List.length_cons] at hlen
        omega
      · exact Bool.eq_false_iff.mpr hp
    rw [List.dropWhile_cons, hpc]
    simp

theorem jsTrimList_idem (l : List Char) : jsTrimList (jsTrimList l) = jsTrimList l := by
  have h1 := dropWhile_idem_char (p := isJSWhitespace) l
  have h2 := dropWhile_rightTrim h1
  show jsTrimList (jsTrimList l) = jsTrimList l
  unfold jsTrimList
  unfold jsTrimList at h2
  rw [h2, List.reverse_reverse, dropWhile_idem_char]

theorem mem_jsTrimList {l : List Char} {c : Char} (h : c ∈ jsTrimList l) : c ∈ l := by
  unfold jsTrimList at h
  rw [List.mem_reverse] at h
  have h2 := (List.dropWhile_suffix isJSWhitespace).subset h
  rw [List.mem_reverse] at h2
  exact (List.dropWhile_suffix isJSWhitespace).subset h2

theorem mem_lastCommaSuffix {l t : List Char} {c : Char}
    (h : lastCommaSuffix l = some t) (hc : c ∈ t) : c ∈ l := by
  unfold lastCommaSuffix at h
  by_cases hcm : l.contains ','
  · rw [if_pos hcm] at h
    cases h
    rw [List.mem_reverse] at hc
    have := (List.takeWhile_sublist (l := l.reverse) (fun c => c != ',')).subset hc
    rwa [List.mem_reverse] at this
  · rw [if_neg hcm] at h
    cases h

/-! ## Claim C3 -/

/-- C3: parsing the two-entry example playlist yields exactly two channels:
the first named "CNN" with group "News" and tvgId "1", the second named
"Unknown" with no group (and no tvgId). -/
theorem example_playlist_parses :
    (parseFromContent "#EXTINF:-1 tvg-id=\"1\" group-title=\"News\",CNN\nhttp://example.com/cnn.m3u8\n#EXTINF:-1,Unknown\nhttp://example.com/x.m3u8").channels.length = 2 ∧
    (parseFromContent "#EXTINF:-1 tvg-id=\"1\" group-title=\"News\",CNN\nhttp://example.com/cnn.m3u8\n#EXTINF:-1,Unknown\nhttp://example.com/x.m3u8").channels.map Channel.name = ["CNN", "Unknown"] ∧
    (parseFromContent "#EXTINF:-1 tvg-id=\"1\" group-title=\"News\",CNN\nhttp://example.com/cnn.m3u8\n#EXTINF:-1,Unknown\nhttp://example.com/x.m3u8").channels.map Channel.group = [some "News", none] ∧
    (parseFromContent "#EXTINF:-1 tvg-id=\"1\" group-title=\"News\",CNN\nhttp://example.com/cnn.m3u8\n#EXTINF:-1,Unknown\nhttp://example.com/x.m3u8").channels.map Channel.tvgId = [some "1", none] := by
  decide

/-! ## Claims C8 and C10 (relay endpoint) -/

/-- C8: the relay endpoint returns 400 for a missing url parameter, passes a
non-success upstream status through, returns 500 on a fetch exception, and on
an ok upstream returns 200 with the body verbatim plus the
`text/plain; charset=utf-8`, CORS `*` and 300-second cache headers. -/
theorem relay_endpoint_spec (u : String) (s : Nat) (b : String) (o : FetchOutcome)
    (hu : u ≠ "") :
    (GET none o).status = 400 ∧
    (¬(200 ≤ s ∧ s ≤ 299) → (GET (some u) (FetchOutcome.response s b)).status = s) ∧
    (GET (some u) FetchOutcome.failure).status = 500 ∧
    (200 ≤ s → s ≤ 299 →
      GET (some u) (FetchOutcome.response s b) =
        { status := 200
          body := b
          headers := [("Content-Type", "text/plain; charset=utf-8"),
                      ("Access-Control-Allow-Origin", "*"),
                      ("Cache-Control", "public, max-age=300")] }) := by
  refine ⟨rfl, ?_, ?_, ?_⟩
  · intro hns
    simp [GET, hu, hns, jsonErrorResponse]
  · simp [GET, hu, jsonErrorResponse]
  · intro h1 h2
    simp [GET, hu, h1, h2]

/-- C8 witness: the four cases at concrete inputs. -/
theorem relay_endpoint_spec_witness :
    (GET none FetchOutcome.failure).status = 400 ∧
    (GET (some "http://up.example/pl.m3u") (FetchOutcome.response 404 "nf")).status = 404 ∧
    (GET (some "http://up.example/pl.m3u") FetchOutcome.failure).status = 500 ∧
    GET (some "http://up.example/pl.m3u") (FetchOutcome.response 200 "#EXTM3U") =
      { status := 200
        body := "#EXTM3U"
        headers := [("Content-Type", "text/plain; charset=utf-8"),
                    ("Access-Control-Allow-Origin", "*"),
                    ("Cache-Control", "public, max-age=300")] } := by
  refine ⟨?_, ?_, ?_, ?_⟩
  · exact (relay_endpoint_spec "http://up.example/pl.m3u" 404 "nf" FetchOutcome.failure (by decide)).1
  · exact (relay_endpoint_spec "http://up.example/pl.m3u" 404 "nf" FetchOutcome.failure (by decide)).2.1 (by decide)
  · exact (relay_endpoint_spec "http://up.example/pl.m3u" 404 "nf" FetchOutcome.failure (by decide)).2.2.1
  · exact (relay_endpoint_spec "http://up.example/pl.m3u" 200 "#EXTM3U" FetchOutcome.failure (by decide)).2.2.2 (by decide) (by decide)

/-- C10: a present-but-empty url parameter is rejected exactly like an absent
one: status 400, and the response does not depend on the fetch outcome (no
upstream fetch is observable). -/
theorem relay_empty_url_param (o o' : FetchOutcome) :
    (GET (some "") o).status = 400 ∧ GET (some "") o = GET (some "") o' := by
  constructor
  · rfl
  · rfl

/-! ## Claim C9 (CORS proxy) -/

/-- C9: `getProxiedUrl` leaves every URL that starts with `https://`
untouched, and rewrites every other URL to the current proxy followed by the
percent-encoded URL. -/
theorem proxied_url_spec (idx : Nat) (url : String) :
    (listStartsWith url.data "https://".data = true → getProxiedUrl idx url = url) ∧
    (listStartsWith url.data "https://".data = false →
      getProxiedUrl idx url = CORS_PROXIES.getD idx "undefined" ++ encodeURIComponent url) := by
  constructor
  · intro h
    simp [getProxiedUrl, h]
  · intro h
    simp [getProxiedUrl, h]

/-- C9 witness: a HTTPS URL passes through; a HTTP URL is proxied through
`corsproxy.io` with percent-encoding. -/
theorem proxied_url_spec_witness :
    getProxiedUrl 0 "https://example.com/a.m3u" = "https://example.com/a.m3u" ∧
    getProxiedUrl 0 "http://example.com/a b.m3u" =
      "https://corsproxy.io/?http%3A%2F%2Fexample.com%2Fa%20b.m3u" := by
  constructor
  · exact (proxied_url_spec 0 "https://example.com/a.m3u").1 (by decide)
  · have h := (proxied_url_spec 0 "http://example.com/a b.m3u").2 (by decide)
    rw [h]
    decide

/-! ## Claim C6 (favorites) -/

/-- C6: toggling an identifier twice restores its membership; toggle is
remove-when-present, add-when-absent; and on a duplicate-free favorites state
(the FavoriteSet invariant) adding introduces no duplicate. -/
theorem toggle_favorite_spec (favorites : List String) (x : String) :
    (x ∈ toggleFavorite x (toggleFavorite x favorites) ↔ x ∈ favorites) ∧
    toggleFavorite x favorites =
      (if favorites.contains x then removeFavorite x favorites else addFavorite x favorites) ∧
    (favorites.Nodup → (addFavorite x favorites).Nodup) := by
  refine ⟨?_, ?_, ?_⟩
  · by_cases hm : x ∈ favorites
    · simp [toggleFavorite, isFavorite, removeFavorite, addFavorite, hm, List.mem_filter]
    · simp [toggleFavorite, isFavorite, removeFavorite, addFavorite, hm, List.mem_filter]
  · simp [toggleFavorite, isFavorite]
  · intro hnd
    by_cases hm : x ∈ favorites
    · simp [addFavorite, hm, hnd]
    · simp [addFavorite, hm, List.nodup_append, hnd]

/-- C6 witness: at a concrete duplicate-free state. -/
theorem toggle_favorite_spec_witness :
    ("a" ∈ toggleFavorite "a" (toggleFavorite "a" ["a", "b"]) ↔ "a" ∈ ["a", "b"]) ∧
    (addFavorite "c" ["a", "b"]).Nodup := by
  constructor
  · exact (toggle_favorite_spec ["a", "b"] "a").1
  · exact (toggle_favorite_spec ["a", "b"] "c").2.2 (by decide)

theorem parseLines_eq_filterMap (ls : List (List Char)) :
    parseLines ls = (entryPairs ls).filterMap (fun p => parseExtInfLine p.1 p.2) := by
  induction ls using parseLines.induct with
  | case1 => rfl
  | case2 l => rfl
  | case3 line next rest hext hcomment ih =>
    simp [parseLines, entryPairs, hext, hcomment, ih]
  | case4 line next rest hext hcomment ch hch ih =>
    simp [parseLines, entryPairs, hext, hcomment, hch, ih]
  | case5 line next rest hext hcomment hch ih =>
    simp [parseLines, entryPairs, hext, hcomment, hch, ih]
  | case6 line next rest hext ih =>
    simp [parseLines, entryPairs, hext, ih]

theorem generateChannelId_isSome (name url : List Char)
    (hn : ∀ c ∈ name, c.toNat ≤ 255) (hu : ∀ c ∈ url, c.toNat ≤ 255) :
    ∃ i, generateChannelId ⟨name⟩ ⟨url⟩ = some i := by
  unfold generateChannelId btoa
  rw [if_pos ?hall]
  case hall =>
    rw [List.all_eq_true]
    intro c hc
    rcases List.mem_append.mp hc with h | h
    · exact decide_eq_true (hn c h)
    · exact decide_eq_true (hu c h)
  exact ⟨_, rfl⟩

theorem parseExtInfLine_isSome {l1 l2 : List Char}
    (h1 : ∀ c ∈ l1, c.toNat ≤ 255) (h2 : ∀ c ∈ l2, c.toNat ≤ 255) :
    ∃ ch, parseExtInfLine l1 l2 = some ch := by
  have huc : ∀ c ∈ "Unknown Channel".data, c.toNat ≤ 255 := by decide
  unfold parseExtInfLine
  cases hs : lastCommaSuffix l1 with
  | none =>
    obtain ⟨i, hi⟩ := generateChannelId_isSome "Unknown Channel".data l2 huc h2
    simp only [hi]
    exact ⟨_, rfl⟩
  | some s =>
    have hn : ∀ c ∈ jsTrimList s, c.toNat ≤ 255 := by
      intro c hc
      exact h1 c (mem_lastCommaSuffix hs (mem_jsTrimList hc))
    obtain ⟨i, hi⟩ := generateChannelId_isSome (jsTrimList s) l2 hn h2
    simp only [hi]
    exact ⟨_, rfl⟩

theorem not_extinf_of_not_hash {l : List Char} (h : listStartsWith l ['#'] = false) :
    listStartsWith l extinfMarker = false := by
  have he : extinfMarker = '#' :: "EXTINF:".data := rfl
  cases l with
  | nil => rfl
  | cons c cs =>
    rw [he]
    simp [listStartsWith] at h ⊢
    intro hc
    exact absurd hc h

theorem parseLines_length_of_latin1 (ls : List (List Char))
    (h : ∀ l ∈ ls, ∀ c ∈ l, c.toNat ≤ 255) :
    (parseLines ls).length = extinfPairCount ls := by
  induction ls using parseLines.induct with
  | case1 => rfl
  | case2 l => rfl
  | case3 line next rest hext hcomment ih =>
    have h' : ∀ l ∈ next :: rest, ∀ c ∈ l, c.toNat ≤ 255 := by
      intro l hl
      exact h l (List.mem_cons_of_mem _ hl)
    simp [parseLines, extinfPairCount, hext, hcomment, ih h']
  | case4 line next rest hext hcomment ch hch ih =>
    have h' : ∀ l ∈ rest, ∀ c ∈ l, c.toNat ≤ 255 := by
      intro l hl
      exact h l (List.mem_cons_of_mem _ (List.mem_cons_of_mem _ hl))
    have hnm : listStartsWith next extinfMarker = false :=
      not_extinf_of_not_hash (by simpa using hcomment)
    have hskip : extinfPairCount (next :: rest) = extinfPairCount rest := by
      cases rest with
      | nil => rfl
      | cons r rs => simp [extinfPairCount, hnm]
    simp [parseLines, extinfPairCount, hext, hcomment, hch, ih h', hskip]
    omega
  | case5 line next rest hext hcomment hch ih =>
    exfalso
    obtain ⟨ch, hcs⟩ := parseExtInfLine_isSome
      (h line (List.mem_cons_self _ _)) (h next (List.mem_cons_of_mem _ (List.mem_cons_self _ _)))
    rw [hch] at hcs
    cases hcs
  | case6 line next rest hext ih =>
    have h' : ∀ l ∈ next :: rest, ∀ c ∈ l, c.toNat ≤ 255 := by
      intro l hl
      exact h l (List.mem_cons_of_mem _ hl)
    simp [parseLines, extinfPairCount, hext, ih h']

theorem parseExtInfLine_id {l1 l2 : List Char} {ch : Channel}
    (ht : jsTrimList l2 = l2) (h : parseExtInfLine l1 l2 = some ch) :
    generateChannelId ch.name ch.url = some ch.id := by
  simp only [parseExtInfLine] at h
  cases hg : generateChannelId
      ⟨match lastCommaSuffix l1 with
        | some s => jsTrimList s
        | none => "Unknown Channel".data⟩ ⟨l2⟩ with
  | none => rw [hg] at h; cases h
  | some i =>
    rw [hg] at h
    simp only [Option.some.injEq] at h
    subst h
    show generateChannelId _ ⟨jsTrimList l2⟩ = some i
    rw [ht]
    exact hg

theorem parseLines_id (ls : List (List Char))
    (ht : ∀ l ∈ ls, jsTrimList l = l) :
    ∀ ch ∈ parseLines ls, generateChannelId ch.name ch.url = some ch.id := by
  induction ls using parseLines.induct with
  | case1 => intro ch hch; cases hch
  | case2 l => intro ch hch; cases hch
  | case3 line next rest hext hcomment ih =>
    have ht' : ∀ l ∈ next :: rest, jsTrimList l = l := by
      intro l hl
      exact ht l (List.mem_cons_of_mem _ hl)
    intro ch hch
    rw [parseLines, if_pos hext, if_pos (by simpa using hcomment)] at hch
    exact ih ht' ch hch
  | case4 line next rest hext hcomment ch hch ih =>
    have ht' : ∀ l ∈ rest, jsTrimList l = l := by
      intro l hl
      exact ht l (List.mem_cons_of_mem _ (List.mem_cons_of_mem _ hl))
    intro ch' hch'
    rw [parseLines, if_pos hext, if_neg (by simpa using hcomment), hch] at hch'
    rcases List.mem_cons.mp hch' with heq | hmem
    · subst heq
      exact parseExtInfLine_id
        (ht next (List.mem_cons_of_mem _ (List.mem_cons_self _ _))) hch
    · exact ih ht' ch' hmem
  | case5 line next rest hext hcomment hch ih =>
    have ht' : ∀ l ∈ rest, jsTrimList l = l := by
      intro l hl
      exact ht l (List.mem_cons_of_mem _ (List.mem_cons_of_mem _ hl))
    intro ch' hch'
    rw [parseLines, if_pos hext, if_neg (by simpa using hcomment), hch] at hch'
    exact ih ht' ch' hch'
  | case6 line next rest hext ih =>
    have ht' : ∀ l ∈ next :: rest, jsTrimList l = l := by
      intro l hl
      exact ht l (List.mem_cons_of_mem _ hl)
    intro ch hch
    rw [parseLines, if_neg (by simpa using hext)] at hch
    exact ih ht' ch hch

theorem processedLines_trimmed (content : String) :
    ∀ l ∈ processedLines content, jsTrimList l = l := by
  intro l hl
  unfold processedLines at hl
  obtain ⟨hl2, _⟩ := List.mem_filter.mp hl
  obtain ⟨x, _, hx⟩ := List.mem_map.mp hl2
  rw [← hx]
  exact jsTrimList_idem x

/-- C1 (amended): when every line of the processed playlist is Latin-1, the
number of parsed channels equals the number of `#EXTINF:` lines immediately
followed by a non-comment line. -/
theorem parse_channel_count (content : String)
    (h : ∀ l ∈ processedLines content, ∀ c ∈ l, c.toNat ≤ 255) :
    (parseFromContent content).channels.length = extinfPairCount (processedLines content) :=
  parseLines_length_of_latin1 (processedLines content) h

/-- C1 witness. -/
theorem parse_channel_count_witness :
    (parseFromContent "#EXTINF:-1,A\nhttp://u").channels.length =
      extinfPairCount (processedLines "#EXTINF:-1,A\nhttp://u") :=
  parse_channel_count "#EXTINF:-1,A\nhttp://u" (by decide)

/-- C1 counterexample: a playlist whose only entry has a non-Latin-1 name
(U+0100) parses to zero channels although one `#EXTINF:` line is immediately
followed by a non-comment URL line. -/
theorem parse_channel_count_cex :
    (parseFromContent "#EXTM3U\n#EXTINF:-1,Ā\nhttp://example.com/a.m3u8").channels.length = 0 ∧
    extinfPairCount (processedLines "#EXTM3U\n#EXTINF:-1,Ā\nhttp://example.com/a.m3u8") = 1 := by
  decide

/-- C2: parsing is deterministic and every parsed channel's identifier is the
function `generateChannelId` of exactly its name and URL. -/
theorem parseFromContent_deterministic (content : String) (ch : Channel)
    (h : ch ∈ (parseFromContent content).channels) :
    parseFromContent content = parseFromContent content ∧
    generateChannelId ch.name ch.url = some ch.id :=
  ⟨rfl, parseLines_id (processedLines content) (processedLines_trimmed content) ch h⟩

/-- C2 witness. -/
theorem parseFromContent_deterministic_witness :
    parseFromContent "#EXTINF:-1,A\nhttp://u" = parseFromContent "#EXTINF:-1,A\nhttp://u" ∧
    generateChannelId "A" "http://u" = some "QWh0dHA6Ly91" :=
  parseFromContent_deterministic "#EXTINF:-1,A\nhttp://u"
    ⟨"QWh0dHA6Ly91", "A", "http://u", none, none, none, none, none, none⟩ (by decide)

/-- C4: parsing never fails as a whole (it is a total function into
`ParsedPlaylist`), and the channel list is exactly the per-entry
`filterMap` over the candidate entry pairs: an entry whose parse fails is
dropped alone, every other entry's outcome is unaffected. -/
theorem parse_skips_failed_entries (content : String) :
    (parseFromContent content).channels =
      (entryPairs (processedLines content)).filterMap (fun p => parseExtInfLine p.1 p.2) ∧
    (parseFromContent content).totalChannels = (parseFromContent content).channels.length :=
  ⟨parseLines_eq_filterMap (processedLines content), rfl⟩

theorem lookupGroup_insertOwn (acc : List (String × List Channel))
    (cat cat' : String) (ch : Channel) :
    (lookupGroup cat (insertOwn acc cat' ch)).getD [] =
      (lookupGroup cat acc).getD [] ++ (if cat' = cat then [ch] else []) := by
  induction acc with
  | nil =>
    by_cases h : cat' = cat
    · simp [insertOwn, lookupGroup, h]
    · simp [insertOwn, lookupGroup, h]
  | cons p rest ih =>
    obtain ⟨k, chs⟩ := p
    by_cases hk : k = cat'
    · by_cases hc : k = cat
      · subst hk; subst hc
        simp [insertOwn, lookupGroup]
      · subst hk
        simp [insertOwn, lookupGroup, hc]
    · by_cases hc : k = cat
      · subst hc
        have hne : ¬cat' = k := fun h => hk h.symm
        simp [insertOwn, lookupGroup, hk, hne]
      · simp [insertOwn, lookupGroup, hk, hc, ih]

theorem flatten_insertOwn (acc : List (String × List Channel))
    (cat : String) (ch : Channel) :
    ((insertOwn acc cat ch).map Prod.snd).flatten.Perm
      ((acc.map Prod.snd).flatten ++ [ch]) := by
  induction acc with
  | nil => simp [insertOwn]
  | cons p rest ih =>
    obtain ⟨k, chs⟩ := p
    by_cases hk : k = cat
    · simp only [insertOwn, if_pos hk, List.map_cons, List.flatten_cons]
      rw [List.append_assoc, List.append_assoc]
      exact List.Perm.append_left chs (List.perm_append_comm)
    · simp only [insertOwn, if_neg hk, List.map_cons, List.flatten_cons]
      rw [List.append_assoc]
      exact List.Perm.append_left chs ih

theorem group_fold_lookup (channels : List Channel) : ∀ (acc : List (String × List Channel))
    (cat : String),
    (lookupGroup cat
        (channels.foldl (fun acc ch => insertOwn acc (categoryOf ch) ch) acc)).getD [] =
      (lookupGroup cat acc).getD [] ++ channels.filter (fun c => categoryOf c == cat) := by
  induction channels with
  | nil => intro acc cat; simp
  | cons c t ih =>
    intro acc cat
    simp only [List.foldl_cons]
    rw [ih, lookupGroup_insertOwn]
    by_cases h : categoryOf c = cat
    · simp [List.filter_cons, h, List.append_assoc]
    · simp [List.filter_cons, h]

theorem group_fold_perm (channels : List Channel) : ∀ (acc : List (String × List Channel)),
    (((channels.foldl (fun acc ch => insertOwn acc (categoryOf ch) ch) acc).map
        Prod.snd).flatten).Perm ((acc.map Prod.snd).flatten ++ channels) := by
  induction channels with
  | nil => intro acc; simp
  | cons c t ih =>
    intro acc
    simp only [List.foldl_cons]
    refine (ih _).trans ?_
    refine (List.Perm.append_right t (flatten_insertOwn acc (categoryOf c) c)).trans ?_
    rw [List.append_assoc]
    exact List.Perm.refl _

theorem groupFold_ok (channels : List Channel) : ∀ (acc : List (String × List Channel)),
    (∀ c ∈ channels, categoryOf c ∉ objectPrototypeKeys) →
    groupFold acc channels =
      Except.ok (channels.foldl (fun a c => insertOwn a (categoryOf c) c) acc) := by
  induction channels with
  | nil => intro acc _; rfl
  | cons c t ih =>
    intro acc h
    have hc : categoryOf c ∉ objectPrototypeKeys := h c (List.mem_cons_self _ _)
    have ht : ∀ x ∈ t, categoryOf x ∉ objectPrototypeKeys :=
      fun x hx => h x (List.mem_cons_of_mem _ hx)
    simp only [groupFold, insertChannel, if_neg hc, List.foldl_cons]
    exact ih _ ht

/-- C5 (amended): on every channel list whose category labels (the group, or
"Uncategorized" for a missing or empty group) avoid the `Object.prototype`
property names, `groupChannelsByCategory` succeeds; each channel with a
missing or empty group is filed under "Uncategorized" and every channel with
a nonempty group under its group label, each bucket is the order-preserving
filter of the input by category, and flattening all buckets is a permutation
of the input. A colliding label instead makes the code throw a `TypeError`. -/
theorem group_by_category_spec (channels : List Channel) (ch : Channel)
    (h : ∀ c ∈ channels, categoryOf c ∉ objectPrototypeKeys) :
    (∃ g, groupChannelsByCategory channels = Except.ok g ∧
      (∀ cat, (lookupGroup cat g).getD [] =
        channels.filter (fun c => categoryOf c == cat)) ∧
      (g.map Prod.snd).flatten.Perm channels) ∧
    (ch.group = none → categoryOf ch = "Uncategorized") ∧
    (∀ s, ch.group = some s → s ≠ "" → categoryOf ch = s) := by
  refine ⟨⟨channels.foldl (fun a c => insertOwn a (categoryOf c) c) [], ?_, ?_, ?_⟩, ?_, ?_⟩
  · exact groupFold_ok channels [] h
  · intro cat
    have hq := group_fold_lookup channels [] cat
    simpa [lookupGroup] using hq
  · have hq := group_fold_perm channels []
    simpa using hq
  · intro hg
    simp [categoryOf, hg]
  · intro s hg hne
    simp [categoryOf, hg, hne]

/-- C5 witness: a single "News" channel groups successfully into the "News"
bucket; a missing group maps to "Uncategorized", a nonempty group to itself. -/
theorem group_by_category_spec_witness :
    (∃ g, groupChannelsByCategory
        [⟨"i", "n", "u", some "News", none, none, none, none, none⟩] = Except.ok g ∧
      (∀ cat, (lookupGroup cat g).getD [] =
        [⟨"i", "n", "u", some "News", none, none, none, none, none⟩].filter
          (fun c => categoryOf c == cat)) ∧
      (g.map Prod.snd).flatten.Perm
        [⟨"i", "n", "u", some "News", none, none, none, none, none⟩]) ∧
    categoryOf ⟨"i", "n", "u", none, none, none, none, none, none⟩ = "Uncategorized" ∧
    categoryOf ⟨"i", "n", "u", some "News", none, none, none, none, none⟩ = "News" := by
  refine ⟨?_, ?_, ?_⟩
  · exact (group_by_category_spec
      [⟨"i", "n", "u", some "News", none, none, none, none, none⟩]
      ⟨"i", "n", "u", some "News", none, none, none, none, none⟩ (by decide)).1
  · exact (group_by_category_spec []
      ⟨"i", "n", "u", none, none, none, none, none, none⟩ (by decide)).2.1 rfl
  · exact (group_by_category_spec []
      ⟨"i", "n", "u", some "News", none, none, none, none, none⟩ (by decide)).2.2 "News" rfl
      (by decide)

/-- C5 counterexample, two independent failures of the claim as stated: a
channel whose group label is "constructor" collides with `Object.prototype`,
so grouping throws a `TypeError` instead of producing any grouping at all
(no permutation of the input exists); and a channel whose group is present
but empty is filed under "Uncategorized", not under its group label "". -/
theorem group_by_category_cex :
    groupChannelsByCategory [⟨"x", "n", "u", some "constructor", none, none, none, none, none⟩] =
      Except.error () ∧
    groupChannelsByCategory [⟨"x", "n", "u", some "", none, none, none, none, none⟩] =
      Except.ok [("Uncategorized", [⟨"x", "n", "u", some "", none, none, none, none, none⟩])] := by
  exact ⟨rfl, rfl⟩

theorem jsFindIndex_head (c : Channel) (rest : List Channel) :
    jsFindIndex (fun ch => ch.id == c.id) (c :: rest) = 0 := by
  simp [jsFindIndex]

theorem jsFindIndex_cons (p : Channel → Bool) (c : Channel) (rest : List Channel) :
    jsFindIndex p (c :: rest) =
      if p c then 0
      else if jsFindIndex p rest < 0 then -1 else jsFindIndex p rest + 1 := rfl

theorem jsFindIndex_getLast : ∀ (channels : List Channel) (h : channels ≠ [])
    (hnd : (channels.map Channel.id).Nodup),
    jsFindIndex (fun ch => ch.id == (channels.getLast h).id) channels =
      (channels.length : Int) - 1 := by
  intro channels
  induction channels with
  | nil => intro h _; cases h rfl
  | cons c rest ih =>
    intro h hnd
    cases rest with
    | nil => simp [jsFindIndex, List.getLast]
    | cons c2 t =>
      have hne : (c2 :: t) ≠ [] := List.cons_ne_nil _ _
      rw [List.getLast_cons hne]
      rw [List.map_cons] at hnd
      obtain ⟨hnotin, hnd2⟩ := List.nodup_cons.mp hnd
      have hlast_mem : ((c2 :: t).getLast hne).id ∈ (c2 :: t).map Channel.id :=
        List.mem_map_of_mem Channel.id (List.getLast_mem hne)
      have hne_id : (c.id == ((c2 :: t).getLast hne).id) = false := by
        rw [beq_eq_false_iff_ne]
        intro heq
        rw [heq] at hnotin
        exact hnotin hlast_mem
      have hr := ih hne hnd2
      rw [jsFindIndex_cons, hne_id, if_neg (by simp), hr]
      have hpos : ¬((c2 :: t).length : Int) - 1 < 0 := by
        simp only [List.length_cons]
        push_cast
        omega
      rw [if_neg hpos]
      simp only [List.length_cons]
      push_cast
      ring
/-- C7: with at least one channel and pairwise-distinct identifiers,
navigating `prev` from the first channel selects the last one, and `next`
from the last channel selects the first. -/
theorem navigate_wraps (channels : List Channel) (h : channels ≠ [])
    (hnd : (channels.map Channel.id).Nodup) :
    navigateChannel channels ((channels.head h).id) NavDirection.prev =
      some (channels.getLast h) ∧
    navigateChannel channels ((channels.getLast h).id) NavDirection.next =
      some (channels.head h) := by
  constructor
  · cases channels with
    | nil => cases h rfl
    | cons c rest =>
      simp only [navigateChannel, List.head_cons]
      rw [jsFindIndex_head]
      have e1 : (0 : Int) - 1 + ((c :: rest).length : Int) = ((rest.length : Nat) : Int) := by
        simp only [List.length_cons]
        push_cast
        ring
      rw [e1]
      have e2 : ((rest.length : Nat) : Int).tmod (((c :: rest).length : Nat) : Int) =
          ((rest.length % (c :: rest).length : Nat) : Int) := rfl
      rw [e2]
      have e3 : rest.length % (c :: rest).length = rest.length :=
        Nat.mod_eq_of_lt (by simp)
      rw [e3]
      rw [if_pos (by positivity)]
      rw [Int.toNat_natCast]
      rw [List.get?_eq_getElem?]
      have e4 : rest.length = (c :: rest).length - 1 := by simp
      rw [e4, ← List.getLast?_eq_getElem?]
      exact (List.getLast?_eq_getLast _ h).symm ▸ rfl
  · cases channels with
    | nil => cases h rfl
    | cons c rest =>
      simp only [navigateChannel]
      rw [jsFindIndex_getLast (c :: rest) h hnd]
      have e1 : ((c :: rest).length : Int) - 1 + 1 = (((c :: rest).length : Nat) : Int) := by
        ring
      rw [e1]
      have e2 : (((c :: rest).length : Nat) : Int).tmod (((c :: rest).length : Nat) : Int) =
          (((c :: rest).length % (c :: rest).length : Nat) : Int) := rfl
      rw [e2, Nat.mod_self]
      rw [if_pos (by simp)]
      simp [List.head_cons]

/-- C7 witness: two channels with distinct identifiers. -/
theorem navigate_wraps_witness :
    navigateChannel [⟨"a", "A", "u", none, none, none, none, none, none⟩,
        ⟨"b", "B", "v", none, none, none, none, none, none⟩] "a" NavDirection.prev =
      some ⟨"b", "B", "v", none, none, none, none, none, none⟩ ∧
    navigateChannel [⟨"a", "A", "u", none, none, none, none, none, none⟩,
        ⟨"b", "B", "v", none, none, none, none, none, none⟩] "b" NavDirection.next =
      some ⟨"a", "A", "u", none, none, none, none, none, none⟩ := by
  exact navigate_wraps
    [⟨"a", "A", "u", none, none, none, none, none, none⟩,
     ⟨"b", "B", "v", none, none, none, none, none, none⟩]
    (by decide) (by decide)
